import Mathlib

/-!
Shallow embedding of `src/scraper.py` (Tice Creek schedule scraper):
the session extractor `parse_bw_widget_html`, the preference filter
`filter_classes`, the deduplication loop of `main`, and the calendar
serializer `generate_ics`, together with the datetime arithmetic they
use (`datetime.fromisoformat`, `strftime` fields, `timedelta` addition).

Machine-level collaborators that the code calls but does not define
(Python's `hashlib.md5` digest and `datetime.utcnow`) are passed in as
explicit parameters; regex scanning of the page into per-session
fragments is represented by the list of per-fragment capture results.
-/

namespace Scraper

/-! ### Character/string primitives (Python `str` operations used by the code) -/

/-- ASCII lower-casing of one character, as Python `str.lower` acts on ASCII. -/
def lowerChar (c : Char) : Char :=
  if 'A' ≤ c ∧ c ≤ 'Z' then Char.ofNat (c.toNat + 32) else c

/-- ASCII upper-casing of one character, as Python `str.upper`/`str.title` act on ASCII. -/
def upperChar (c : Char) : Char :=
  if 'a' ≤ c ∧ c ≤ 'z' then Char.ofNat (c.toNat - 32) else c

/-- Python `str.lower` (on the ASCII range). -/
def lowerStr (s : String) : String :=
  String.mk (s.data.map lowerChar)

/-- The characters Python `str.strip()` removes by default (ASCII whitespace). -/
def isStripWs (c : Char) : Bool :=
  c = ' ' ∨ c = '\t' ∨ c = '\n' ∨ c = '\r' ∨ c = '\x0b' ∨ c = '\x0c'

/-- Python `str.strip()`: drop leading and trailing whitespace. -/
def stripStr (s : String) : String :=
  String.mk (((s.data.dropWhile isStripWs).reverse.dropWhile isStripWs).reverse)

/-- Python `str.replace("_", " ")`: single-character replacement, done charwise. -/
def underscoreToSpace (s : String) : String :=
  String.mk (s.data.map (fun c => if c = '_' then ' ' else c))

/-- One step of Python `str.title`: `cased` is whether the previous character
was alphabetic; an alphabetic character after a non-alphabetic one is
upper-cased, all other alphabetic characters are lower-cased. -/
def titleChars (cased : Bool) : List Char → List Char
  | [] => []
  | c :: rest =>
    if c.isAlpha then
      (if cased then lowerChar c else upperChar c) :: titleChars true rest
    else
      c :: titleChars false rest

/-- Python `str.title` (on the ASCII range). -/
def titleStr (s : String) : String :=
  String.mk (titleChars false s.data)

/-- `leadsChars needle hay`: `hay` starts with `needle`. -/
def leadsChars : List Char → List Char → Bool
  | [], _ => true
  | _ :: _, [] => false
  | a :: as, b :: bs => a = b && leadsChars as bs

/-- `containsChars needle hay`: `needle` occurs contiguously in `hay`
(Python's `needle in hay` on strings). -/
def containsChars (needle : List Char) : List Char → Bool
  | [] => needle.isEmpty
  | c :: rest => leadsChars needle (c :: rest) || containsChars needle rest

/-- Python `pat in hay` substring test. -/
def strContains (hay pat : String) : Bool :=
  containsChars pat.data hay.data

/-! ### The two `re.sub` tag strippers of `parse_bw_widget_html` -/

/-- Scan to the first `>` and return what follows it (`[^>]*>` consumed). -/
def afterGt : List Char → Option (List Char)
  | [] => none
  | c :: rest => if c = '>' then some rest else afterGt rest

/-- One match of `<[^>]+>` starting right after a `<`: at least one
non-`>` character, then `>`; returns the remainder after the match. -/
def dropTag : List Char → Option (List Char)
  | [] => none
  | c :: rest => if c = '>' then none else afterGt rest

/-- Python `re.sub(r'<[^>]+>', '', s)` on the character list: remove every
leftmost non-overlapping tag-shaped run. Each step consumes at least one
character, so list-length fuel always suffices and the zero-fuel arm is
never reached from `stripTags`. -/
def stripTagsGo : Nat → List Char → List Char
  | _, [] => []
  | 0, l => l
  | fuel + 1, c :: rest =>
    if c = '<' then
      match dropTag rest with
      | some rest2 => stripTagsGo fuel rest2
      | none => c :: stripTagsGo fuel rest
    else c :: stripTagsGo fuel rest

/-- Python `re.sub(r'<[^>]+>', '', s)`. -/
def stripTags (s : String) : String :=
  String.mk (stripTagsGo s.data.length s.data)

/-- Scan to the first occurrence of `</span>` and return what follows it
(the lazy `.*?</span>` tail of the span-stripping pattern). -/
def afterCloseSpan : List Char → Option (List Char)
  | [] => none
  | c :: rest =>
    if leadsChars ['<', '/', 's', 'p', 'a', 'n', '>'] (c :: rest) then
      some ((c :: rest).drop 7)
    else afterCloseSpan rest

/-- One match of `<span[^>]*>.*?</span>` at the head of `l`:
literal `<span`, the first `>` after it, then the first `</span>`;
returns the remainder after the whole match. -/
def matchSpan (l : List Char) : Option (List Char) :=
  if leadsChars ['<', 's', 'p', 'a', 'n'] l then
    match afterGt (l.drop 5) with
    | some m => afterCloseSpan m
    | none => none
  else none

/-- Python `re.sub(r'<span[^>]*>.*?</span>', '', s, flags=DOTALL)` on the
character list: remove every leftmost non-overlapping span element. A
successful `matchSpan` consumes at least one character, so list-length fuel
always suffices and the zero-fuel arm is never reached from `stripSpans`. -/
def stripSpansGo : Nat → List Char → List Char
  | _, [] => []
  | 0, l => l
  | fuel + 1, c :: rest =>
    match matchSpan (c :: rest) with
    | some r => stripSpansGo fuel r
    | none => c :: stripSpansGo fuel rest

/-- Python `re.sub(r'<span[^>]*>.*?</span>', '', s, flags=DOTALL)`. -/
def stripSpans (s : String) : String :=
  String.mk (stripSpansGo s.data.length s.data)

/-! ### Timezone-naive datetimes (`datetime.datetime`) -/

/-- A timezone-naive wall-clock datetime, as produced by
`datetime.fromisoformat` on the widget's attribute values. -/
structure DT where
  year : Int
  month : Nat
  day : Nat
  hour : Nat
  minute : Nat
  second : Nat
deriving DecidableEq, Repr

/-- The proleptic-Gregorian leap-year rule. -/
def isLeap (y : Int) : Bool :=
  y % 4 = 0 && (y % 100 ≠ 0 || y % 400 = 0)

/-- Days in a month of the proleptic Gregorian calendar (0 for an invalid month). -/
def daysInMonth (y : Int) (m : Nat) : Nat :=
  match m with
  | 1 => 31 | 2 => if isLeap y then 29 else 28 | 3 => 31 | 4 => 30
  | 5 => 31 | 6 => 30 | 7 => 31 | 8 => 31 | 9 => 30 | 10 => 31
  | 11 => 30 | 12 => 31
  | _ => 0

/-- Days from 1970-01-01 to the given civil date (Gregorian; floor-division
form of the standard civil-from-days algorithm). -/
def daysFromCivil (y0 : Int) (m : Nat) (d : Nat) : Int :=
  let y : Int := if m ≤ 2 then y0 - 1 else y0
  let era : Int := y / 400
  let yoe : Int := y - era * 400
  let mp : Int := ((m : Int) + 9) % 12
  let doy : Int := (153 * mp + 2) / 5 + ((d : Int) - 1)
  let doe : Int := yoe * 365 + yoe / 4 - yoe / 100 + doy
  era * 146097 + doe - 719468

/-- Civil date from days since 1970-01-01 (inverse of `daysFromCivil`). -/
def civilFromDays (z0 : Int) : Int × Nat × Nat :=
  let z := z0 + 719468
  let era := z / 146097
  let doe := z - era * 146097
  let yoe := (doe - doe / 1460 + doe / 36524 - doe / 146096) / 365
  let y := yoe + era * 400
  let doy := doe - (365 * yoe + yoe / 4 - yoe / 100)
  let mp := (5 * doy + 2) / 153
  let d := doy - (153 * mp + 2) / 5 + 1
  let m := if mp < 10 then mp + 3 else mp - 9
  (if m ≤ 2 then y + 1 else y, m.toNat, d.toNat)

/-- Seconds from the epoch to a naive datetime (used for `end - start`
and for `timedelta` addition). -/
def toSeconds (dt : DT) : Int :=
  daysFromCivil dt.year dt.month dt.day * 86400
    + (dt.hour : Int) * 3600 + (dt.minute : Int) * 60 + (dt.second : Int)

/-- Naive datetime from seconds since the epoch. -/
def fromSeconds (s : Int) : DT :=
  let days := s / 86400
  let secs := (s % 86400).toNat
  let ymd := civilFromDays days
  { year := ymd.1, month := ymd.2.1, day := ymd.2.2,
    hour := secs / 3600, minute := secs % 3600 / 60, second := secs % 60 }

/-- Python `dt + timedelta(minutes=k)`. -/
def addMinutes (dt : DT) (k : Int) : DT :=
  fromSeconds (toSeconds dt + k * 60)

/-- Python `int(x)` on an exact rational `a/60`: truncation toward zero,
expressed with Euclidean division. -/
def truncDiv60 (a : Int) : Int :=
  if 0 ≤ a then a / 60 else -((-a) / 60)

/-- Python `int((end_dt - start_dt).total_seconds() / 60)`. -/
def minutesBetween (start_dt end_dt : DT) : Int :=
  truncDiv60 (toSeconds end_dt - toSeconds start_dt)

/-! ### `datetime.fromisoformat` on the widget's attribute strings -/

/-- Numeric value of an ASCII digit. -/
def digitVal (c : Char) : Option Nat :=
  if c.isDigit then some (c.toNat - 48) else none

/-- Two-digit number. -/
def num2 (a b : Char) : Option Nat :=
  match digitVal a, digitVal b with
  | some x, some y => some (10 * x + y)
  | _, _ => none

/-- Four-digit number. -/
def num4 (a b c d : Char) : Option Nat :=
  match digitVal a, digitVal b, digitVal c, digitVal d with
  | some w, some x, some y, some z => some (1000 * w + 100 * x + 10 * y + z)
  | _, _, _, _ => none

/-- The optional time part of an ISO string: empty, `THH:MM`, or `THH:MM:SS`
(with `T` or a space as separator), range-checked as Python does. -/
def isoTimePart : List Char → Option (Nat × Nat × Nat)
  | [] => some (0, 0, 0)
  | sep :: h1 :: h2 :: ':' :: mi1 :: mi2 :: rest =>
    if sep = 'T' ∨ sep = ' ' then
      match num2 h1 h2, num2 mi1 mi2 with
      | some h, some mi =>
        if h ≤ 23 ∧ mi ≤ 59 then
          match rest with
          | [] => some (h, mi, 0)
          | ':' :: s1 :: s2 :: [] =>
            match num2 s1 s2 with
            | some sec => if sec ≤ 59 then some (h, mi, sec) else none
            | none => none
          | _ => none
        else none
      | _, _ => none
    else none
  | _ => none

/-- `datetime.fromisoformat` on the character list: `YYYY-MM-DD` plus an
optional time part, with Python's range validation (year 1–9999, valid
month/day). Returns `none` exactly where Python raises `ValueError`. -/
def isoFromChars : List Char → Option DT
  | y1 :: y2 :: y3 :: y4 :: '-' :: m1 :: m2 :: '-' :: d1 :: d2 :: rest =>
    match num4 y1 y2 y3 y4, num2 m1 m2, num2 d1 d2 with
    | some y, some mo, some dy =>
      if 1 ≤ y ∧ 1 ≤ mo ∧ mo ≤ 12 ∧ 1 ≤ dy ∧ dy ≤ daysInMonth (y : Int) mo then
        match isoTimePart rest with
        | some t => some { year := (y : Int), month := mo, day := dy,
                           hour := t.1, minute := t.2.1, second := t.2.2 }
        | none => none
      else none
    | _, _, _ => none
  | _ => none

/-- `datetime.fromisoformat` on a string. -/
def fromisoformat (s : String) : Option DT :=
  isoFromChars s.data

/-! ### `strftime` fields used by the code -/

/-- Zero-pad to two digits. -/
def pad2 (n : Nat) : String :=
  if n < 10 then "0" ++ toString n else toString n

/-- Zero-pad to four digits (`%Y` for the years in range). -/
def pad4 (n : Nat) : String :=
  if n < 10 then "000" ++ toString n
  else if n < 100 then "00" ++ toString n
  else if n < 1000 then "0" ++ toString n
  else toString n

/-- `strftime("%Y-%m-%d")`. -/
def fmtDate (dt : DT) : String :=
  pad4 dt.year.toNat ++ "-" ++ pad2 dt.month ++ "-" ++ pad2 dt.day

/-- `strftime("%A")`: full weekday name. -/
def weekdayName (dt : DT) : String :=
  let idx := ((daysFromCivil dt.year dt.month dt.day + 4) % 7).toNat
  ["Sunday", "Monday", "Tuesday", "Wednesday", "Thursday", "Friday",
    "Saturday"].getD idx ""

/-- `strftime("%I:%M %p").lstrip("0")`: 12-hour time with the leading zero
of the two-digit hour field stripped. -/
def fmt12h (dt : DT) : String :=
  let h12 := if dt.hour % 12 = 0 then 12 else dt.hour % 12
  toString h12 ++ ":" ++ pad2 dt.minute ++ " " ++ (if dt.hour < 12 then "AM" else "PM")

/-- `strftime("%Y%m%dT%H%M%S")`, the DTSTART/DTEND value format. -/
def fmtCompact (dt : DT) : String :=
  pad4 dt.year.toNat ++ pad2 dt.month ++ pad2 dt.day ++ "T"
    ++ pad2 dt.hour ++ pad2 dt.minute ++ pad2 dt.second

/-! ### Data model -/

/-- The `cls` dict built by `parse_bw_widget_html` (lines 116–137). The two
keys that are only conditionally assigned (`end_time`, `duration_minutes`)
are `Option`s; every other key is always present. -/
structure ClassRec where
  name : String
  raw_name : String
  start_iso : String
  end_iso : String
  date : String
  day : String
  time : String
  start_hour : Int
  instructor : String
  source : String
  end_time : Option String
  duration_minutes : Option Int
deriving DecidableEq, Repr

/-- The capture results of the per-fragment regex searches of
`parse_bw_widget_html` (lines 78–108): `re.search` on the opening tag for
the `data-bw-widget-mbo-class-name` attribute, and on the fragment content
for the `hc_starttime`/`hc_endtime` datetime attributes and the
`bw-session__name`/`bw-session__staff` block bodies. `none` means the
regex did not match. -/
structure Frag where
  rawNameAttr : Option String
  startAttr : Option String
  endAttr : Option String
  nameBlock : Option String
  staffBlock : Option String
deriving DecidableEq, Repr

/-- The configuration mapping read via `config.get(...)`: a missing key is
`none`/`[]` and each call site applies its own default. -/
structure Config where
  include_classes : List String
  exclude_classes : List String
  earliest_hour : Option Int
  latest_hour : Option Int
  calendar_name : Option String
  default_class_duration_minutes : Option Int
deriving Repr

/-! ### Session extractor (`parse_bw_widget_html`, lines 64–141) -/

/-- The loop body of `parse_bw_widget_html` for one matched fragment:
`none` exactly when the fragment is skipped by a `continue`
(no `hc_starttime` match, or `datetime.fromisoformat` on it raises). -/
def processFrag (label : String) (f : Frag) : Option ClassRec :=
  let raw_name := f.rawNameAttr.getD ""
  match f.startAttr with
  | none => none
  | some start_iso =>
    let end_iso := f.endAttr.getD ""
    let nameText :=
      match f.nameBlock with
      | some nb => stripStr (stripTags (stripSpans nb))
      | none => ""
    let display_name :=
      if nameText = "" then titleStr (underscoreToSpace raw_name) else nameText
    let instructor :=
      match f.staffBlock with
      | some sb => stripStr (stripTags sb)
      | none => ""
    match fromisoformat start_iso with
    | none => none
    | some start_dt =>
      let base : ClassRec :=
        { name := display_name
          raw_name := raw_name
          start_iso := start_iso
          end_iso := end_iso
          date := fmtDate start_dt
          day := weekdayName start_dt
          time := fmt12h start_dt
          start_hour := (start_dt.hour : Int)
          instructor := instructor
          source := label
          end_time := none
          duration_minutes := none }
      if end_iso ≠ "" then
        match fromisoformat end_iso with
        | some end_dt =>
          some { base with
                 end_time := some (fmt12h end_dt)
                 duration_minutes := some (minutesBetween start_dt end_dt) }
        | none => some base
      else some base

/-- `parse_bw_widget_html`: the `re.findall` fragment scan is represented by
the list of per-fragment capture results; the loop appends one record per
fragment that passes both start-timestamp gates. -/
def parse_bw_widget_html (frags : List Frag) (label : String) : List ClassRec :=
  frags.filterMap (processFrag label)

/-! ### Preference filter (`filter_classes`, lines 188–218) -/

/-- `[c.lower().strip() for c in config.get(key, []) if c]`. -/
def normPatterns (l : List String) : List String :=
  (l.filter (fun c => c ≠ "")).map (fun c => stripStr (lowerStr c))

/-- `combined = cls.get("name", "").lower() + " " + cls.get("raw_name", "").lower()`. -/
def combinedName (cls : ClassRec) : String :=
  lowerStr cls.name ++ " " ++ lowerStr cls.raw_name

/-- `include and not any(p in combined for p in include)` (line 203). -/
def includeRejects (incl : List String) (cls : ClassRec) : Bool :=
  !incl.isEmpty && !(incl.any (fun p => strContains (combinedName cls) p))

/-- `exclude and any(p in combined for p in exclude)` (line 205). -/
def excludeRejects (exclude : List String) (cls : ClassRec) : Bool :=
  !exclude.isEmpty && exclude.any (fun p => strContains (combinedName cls) p)

/-- `earliest is not None and hour < earliest` (line 210). -/
def earliestRejects (earliest : Option Int) (cls : ClassRec) : Bool :=
  match earliest with
  | some e => decide (cls.start_hour < e)
  | none => false

/-- `latest is not None and hour >= latest` (line 212). -/
def latestRejects (latest : Option Int) (cls : ClassRec) : Bool :=
  match latest with
  | some lt => decide (lt ≤ cls.start_hour)
  | none => false

/-- The loop body of `filter_classes`: `true` when the record survives every
`continue`. In every record built by the extractor the `start_hour` key is
present, so the `hour is not None` guard of line 209 always holds. -/
def keepClass (incl exclude : List String)
    (earliest latest : Option Int) (cls : ClassRec) : Bool :=
  if includeRejects incl cls then false
  else if excludeRejects exclude cls then false
  else if earliestRejects earliest cls then false
  else if latestRejects latest cls then false
  else true

/-- `filter_classes` (lines 188–218). -/
def filter_classes (classes : List ClassRec) (config : Config) : List ClassRec :=
  let incl := normPatterns config.include_classes
  let exclude := normPatterns config.exclude_classes
  let earliest := config.earliest_hour
  let latest := config.latest_hour
  if incl.isEmpty && exclude.isEmpty && earliest.isNone && latest.isNone then
    classes
  else
    classes.filter (keepClass incl exclude earliest latest)

/-! ### Deduplication (`main`, lines 436–446) -/

/-- The deduplication key `(cls.get("start_iso", ""), cls.get("name", ""))`. -/
def dkey (cls : ClassRec) : String × String :=
  (cls.start_iso, cls.name)

/-- The dedup loop with its `seen` set (modelled as the list of keys added
so far) and `unique` accumulator. -/
def dedupeAux (seen : List (String × String)) : List ClassRec → List ClassRec
  | [] => []
  | cls :: rest =>
    if dkey cls ∈ seen then dedupeAux seen rest
    else cls :: dedupeAux (dkey cls :: seen) rest

/-- Deduplicate by `start_iso + name`, keeping the first record of each key. -/
def dedupe (classes : List ClassRec) : List ClassRec :=
  dedupeAux [] classes

/-! ### Calendar serializer (`generate_ics`, lines 225–303) -/

/-- `LOCATION` constant (line 34). -/
def LOCATION : String :=
  "Tice Creek Fitness Center, 1751 Tice Creek Dr, Walnut Creek, CA 94595"

/-- Default calendar name (lines 226–227). -/
def defaultCalName : String :=
  "Tice Creek Fitness – Mom\x27s Classes"

/-- The fixed header and timezone block (lines 231–247). -/
def headerLines (calName : String) : List String :=
  ["BEGIN:VCALENDAR", "VERSION:2.0",
   "PRODID:-//Tice Creek Calendar Sync//EN",
   "X-WR-CALNAME:" ++ calName,
   "X-WR-TIMEZONE:America/Los_Angeles",
   "CALSCALE:GREGORIAN", "METHOD:PUBLISH",
   "BEGIN:VTIMEZONE", "TZID:America/Los_Angeles",
   "BEGIN:DAYLIGHT", "TZOFFSETFROM:-0800", "TZOFFSETTO:-0700",
   "TZNAME:PDT",
   "DTSTART:19700308T020000",
   "RRULE:FREQ=YEARLY;BYMONTH=3;BYDAY=2SU", "END:DAYLIGHT",
   "BEGIN:STANDARD", "TZOFFSETFROM:-0700", "TZOFFSETTO:-0800",
   "TZNAME:PST",
   "DTSTART:19701101T020000",
   "RRULE:FREQ=YEARLY;BYMONTH=11;BYDAY=1SU", "END:STANDARD",
   "END:VTIMEZONE"]

/-- `"\U0001f3ca"`, the water-class marker. -/
def waterEmoji : String :=
  String.mk [Char.ofNat 0x1F3CA]

/-- `"\U0001f3cb️"`, the non-water marker. -/
def liftEmoji : String :=
  String.mk [Char.ofNat 0x1F3CB, Char.ofNat 0xFE0F]

/-- `any(w in name.lower() for w in ["aqua", "water", "swim", "pool"])`. -/
def isWater (name : String) : Bool :=
  ["aqua", "water", "swim", "pool"].any (fun w => strContains (lowerStr name) w)

/-- Python `sep.join(parts)`, written out recursively so that it evaluates
in the kernel. -/
def joinWith (sep : String) : List String → String
  | [] => ""
  | [x] => x
  | x :: rest => x ++ sep ++ joinWith sep rest

/-- The free-text DESCRIPTION body (lines 272–280): optional instructor and
schedule lines plus the fixed trailer, joined by a literal backslash-n. -/
def descriptionOf (cls : ClassRec) : String :=
  let parts :=
    (if cls.instructor ≠ "" then ["Instructor: " ++ cls.instructor] else [])
      ++ (if cls.source ≠ "" then
            ["Schedule: " ++ titleStr (underscoreToSpace cls.source)] else [])
      ++ ["Auto-synced from ticefitnesscenter.com"]
  joinWith "\\n" parts

/-- The loop body of `generate_ics` for one record (lines 250–299): the
VEVENT lines it appends, or `[]` when the record is skipped by a
`continue` (falsy `start_iso`, or `fromisoformat` raising). `md5hex16`
stands for `hashlib.md5(...).hexdigest()[:16]` and `nowUtc` for the
`DTSTAMP` string computed from `datetime.utcnow()` at line 229. -/
def eventBlock (defaultDur : Int) (nowUtc : String) (md5hex16 : String → String)
    (cls : ClassRec) : List String :=
  if cls.start_iso = "" then []
  else
    match fromisoformat cls.start_iso with
    | none => []
    | some start =>
      let dur0 := cls.duration_minutes.getD defaultDur
      let dur := if dur0 ≤ 0 then defaultDur else dur0
      let endDt := addMinutes start dur
      let emoji := if isWater cls.name then waterEmoji else liftEmoji
      let uid := md5hex16 (cls.name ++ "-" ++ cls.date ++ "-" ++ cls.start_iso)
      ["BEGIN:VEVENT",
       "UID:" ++ uid ++ "@tice-creek-sync",
       "DTSTAMP:" ++ nowUtc,
       "DTSTART;TZID=America/Los_Angeles:" ++ fmtCompact start,
       "DTEND;TZID=America/Los_Angeles:" ++ fmtCompact endDt,
       "SUMMARY:" ++ emoji ++ " " ++ cls.name,
       "DESCRIPTION:" ++ descriptionOf cls,
       "LOCATION:" ++ LOCATION,
       "STATUS:CONFIRMED", "TRANSP:TRANSPARENT",
       "END:VEVENT"]

/-- The `lines` list of `generate_ics` just before the final join. -/
def icsLines (classes : List ClassRec) (config : Config) (nowUtc : String)
    (md5hex16 : String → String) : List String :=
  let calName := config.calendar_name.getD defaultCalName
  let defaultDur := (config.default_class_duration_minutes).getD 45
  headerLines calName
    ++ classes.flatMap (eventBlock defaultDur nowUtc md5hex16)
    ++ ["END:VCALENDAR"]

/-- `generate_ics` (lines 225–303): the CRLF join of line 303. -/
def generate_ics (classes : List ClassRec) (config : Config) (nowUtc : String)
    (md5hex16 : String → String) : String :=
  joinWith "\r\n" (icsLines classes config nowUtc md5hex16)

/-! ### Helper lemmas -/

/-- The empty string never parses as an ISO datetime. -/
theorem fromisoformat_empty : fromisoformat "" = none := rfl

/-- A fragment whose start capture is absent or unparseable is skipped by
the extractor's loop body. -/
theorem processFrag_none_of_bad_start (label : String) (f : Frag)
    (h : f.startAttr = none ∨ ∃ s, f.startAttr = some s ∧ fromisoformat s = none) :
    processFrag label f = none := by
  rcases h with h | ⟨s, hs, hp⟩
  · simp [processFrag, h]
  · simp [processFrag, hs, hp]

/-- A record rejected by the loop body is not in the filter output, as long
as the filter is actually configured (the short-circuit of line 194 is not
taken). -/
theorem notMem_filter_classes (config : Config) (classes : List ClassRec) (cls : ClassRec)
    (hcond : ((normPatterns config.include_classes).isEmpty
        && (normPatterns config.exclude_classes).isEmpty
        && config.earliest_hour.isNone
        && config.latest_hour.isNone) = false)
    (hkeep : keepClass (normPatterns config.include_classes)
        (normPatterns config.exclude_classes) config.earliest_hour
        config.latest_hour cls = false) :
    cls ∉ filter_classes classes config := by
  unfold filter_classes
  dsimp only
  rw [hcond]
  simp only [Bool.false_eq_true, if_false]
  intro hmem
  have := (List.mem_filter.mp hmem).2
  rw [hkeep] at this
  exact Bool.noConfusion this

end Scraper

namespace Scraper

/-- **C1.** For every source label, a session fragment whose content
contains no start-timestamp capture, or whose start-timestamp value fails
to parse as an ISO date-time, contributes no record to the output of
extraction, while fragments before and after it are still extracted. -/
theorem c1_unparseable_start_skipped (label : String) (pre post : List Frag) (f : Frag)
    (h : f.startAttr = none ∨ ∃ s, f.startAttr = some s ∧ fromisoformat s = none) :
    parse_bw_widget_html (pre ++ f :: post) label
      = parse_bw_widget_html pre label ++ parse_bw_widget_html post label := by
  have hnone := processFrag_none_of_bad_start label f h
  simp [parse_bw_widget_html, List.filterMap_append, List.filterMap_cons, hnone]

/-- C1 witness: a fragment with no start-timestamp capture between two
well-formed fragments is dropped while both neighbours are extracted. -/
theorem c1_witness :
    parse_bw_widget_html
        [⟨some "water_aerobics", some "2026-02-16T10:00", some "2026-02-16T10:45", none, none⟩,
         ⟨some "bad", none, some "2026-02-16T10:45", none, none⟩,
         ⟨none, some "2026-02-16T06:00", some "", none, none⟩] "aquatics"
      = parse_bw_widget_html
          [⟨some "water_aerobics", some "2026-02-16T10:00", some "2026-02-16T10:45", none, none⟩]
          "aquatics"
        ++ parse_bw_widget_html
            [⟨none, some "2026-02-16T06:00", some "", none, none⟩] "aquatics" :=
  c1_unparseable_start_skipped "aquatics"
    [⟨some "water_aerobics", some "2026-02-16T10:00", some "2026-02-16T10:45", none, none⟩]
    [⟨none, some "2026-02-16T06:00", some "", none, none⟩]
    ⟨some "bad", none, some "2026-02-16T10:45", none, none⟩ (Or.inl rfl)

/-- **C5.** With no include patterns, no exclude patterns and neither hour
bound, the filter returns the input list itself, whatever the remaining
configuration fields are. -/
theorem c5_empty_config_noop (classes : List ClassRec)
    (calName : Option String) (dd : Option Int) :
    filter_classes classes ⟨[], [], none, none, calName, dd⟩ = classes := rfl

/-- **C10.** Include entries that are empty strings are discarded before
matching: an include list containing only empty strings, with no exclude
patterns and no hour bounds, leaves the filter a no-op. -/
theorem c10_empty_include_discarded (classes : List ClassRec) (incList : List String)
    (calName : Option String) (dd : Option Int)
    (h : ∀ s ∈ incList, s = "") :
    filter_classes classes ⟨incList, [], none, none, calName, dd⟩ = classes := by
  have hn : normPatterns incList = [] := by
    unfold normPatterns
    have hf : incList.filter (fun c => c ≠ "") = [] := by
      rw [List.filter_eq_nil_iff]
      intro a ha
      simp [h a ha]
    rw [hf]
    rfl
  have h2 : normPatterns ([] : List String) = [] := rfl
  unfold filter_classes
  simp [hn, h2]

/-- C10 witness: an include list of two empty strings filters nothing. -/
theorem c10_witness :
    filter_classes
        [⟨"Gentle Yoga", "gentle_yoga", "2026-02-16T10:00", "", "2026-02-16", "Monday",
          "10:00 AM", 10, "", "group_fitness", none, none⟩]
        ⟨["", ""], [], none, none, none, none⟩
      = [⟨"Gentle Yoga", "gentle_yoga", "2026-02-16T10:00", "", "2026-02-16", "Monday",
          "10:00 AM", 10, "", "group_fitness", none, none⟩] :=
  c10_empty_include_discarded _ ["", ""] none none (by decide)

/-- **C3.** If at least one (normalized) include pattern is configured and
none occurs as a substring of the lowercased display name, a space, and the
lowercased raw name, the record is not in the filter's output; and if any
(normalized) exclude pattern occurs as a substring of that combination,
the record is not in the filter's output even when an include pattern
also matched. -/
theorem c3_include_exclude_policy (config : Config) (classes : List ClassRec)
    (cls : ClassRec) :
    (normPatterns config.include_classes ≠ [] →
      (∀ p ∈ normPatterns config.include_classes,
        strContains (combinedName cls) p = false) →
      cls ∉ filter_classes classes config)
    ∧ (∀ p ∈ normPatterns config.exclude_classes,
        strContains (combinedName cls) p = true →
        cls ∉ filter_classes classes config) := by
  constructor
  · intro hne hnone
    have e1 : (normPatterns config.include_classes).isEmpty = false := by
      cases hi : normPatterns config.include_classes
      · exact absurd hi hne
      · rfl
    have e2 : (normPatterns config.include_classes).any
        (fun p => strContains (combinedName cls) p) = false := by
      rw [List.any_eq_false]
      intro p hp
      simp [hnone p hp]
    have hrej : includeRejects (normPatterns config.include_classes) cls = true := by
      unfold includeRejects
      rw [e1, e2]
      rfl
    have hkeep : keepClass (normPatterns config.include_classes)
        (normPatterns config.exclude_classes) config.earliest_hour
        config.latest_hour cls = false := by
      simp [keepClass, hrej]
    exact notMem_filter_classes config classes cls (by rw [e1]; rfl) hkeep

  · intro p hp hsub
    have e1 : (normPatterns config.exclude_classes).isEmpty = false := by
      cases hi : normPatterns config.exclude_classes
      · rw [hi] at hp
        simp at hp
      · rfl
    have e2 : (normPatterns config.exclude_classes).any
        (fun p => strContains (combinedName cls) p) = true :=
      List.any_eq_true.mpr ⟨p, hp, hsub⟩
    have hrej : excludeRejects (normPatterns config.exclude_classes) cls = true := by
      unfold excludeRejects
      rw [e1, e2]
      rfl
    have hkeep : keepClass (normPatterns config.include_classes)
        (normPatterns config.exclude_classes) config.earliest_hour
        config.latest_hour cls = false := by
      unfold keepClass
      cases hinc : includeRejects (normPatterns config.include_classes) cls
      · simp [hrej]
      · simp
    exact notMem_filter_classes config classes cls
      (by rw [e1]; simp) hkeep

/-- C3 witness: with include `["yoga"]` and exclude `["gentle"]`, a record
named "Gentle Yoga" matches the include pattern but is still rejected by
the exclude pattern. -/
theorem c3_witness :
    (⟨"Gentle Yoga", "gentle_yoga", "2026-02-16T10:00", "", "2026-02-16", "Monday",
        "10:00 AM", 10, "", "group_fitness", none, none⟩ : ClassRec)
      ∉ filter_classes
          [⟨"Gentle Yoga", "gentle_yoga", "2026-02-16T10:00", "", "2026-02-16", "Monday",
            "10:00 AM", 10, "", "group_fitness", none, none⟩]
          ⟨["yoga"], ["gentle"], none, none, none, none⟩ :=
  (c3_include_exclude_policy ⟨["yoga"], ["gentle"], none, none, none, none⟩ _ _).2
    "gentle" (by decide) (by decide)

/-- **C4.** For a record passing both name gates, the hour bounds are
half-open: the record survives the filter's loop body exactly when its
start hour is at least any configured earliest bound and strictly below
any configured latest bound. -/
theorem c4_hour_bounds_half_open (incl exclude : List String)
    (earliest latest : Option Int) (cls : ClassRec)
    (h1 : includeRejects incl cls = false)
    (h2 : excludeRejects exclude cls = false) :
    keepClass incl exclude earliest latest cls = true ↔
      ((∀ e, earliest = some e → e ≤ cls.start_hour)
        ∧ (∀ lt, latest = some lt → cls.start_hour < lt)) := by
  unfold keepClass earliestRejects latestRejects
  rw [h1, h2]
  cases earliest with
  | none =>
    cases latest with
    | none => simp
    | some lt => simp
  | some e =>
    cases latest with
    | none => simp
    | some lt => simp

/-- C4 witness: `earliest_hour = 9` keeps a record starting at hour 9, and
`latest_hour = 17` keeps it too. -/
theorem c4_witness :
    keepClass [] [] (some 9) (some 17)
        ⟨"Aqua Fit", "", "2026-02-16T09:00", "", "2026-02-16", "Monday",
          "9:00 AM", 9, "", "aquatics", none, none⟩ = true :=
  (c4_hour_bounds_half_open [] [] (some 9) (some 17)
      ⟨"Aqua Fit", "", "2026-02-16T09:00", "", "2026-02-16", "Monday",
        "9:00 AM", 9, "", "aquatics", none, none⟩ rfl rfl).mpr
    (by
      constructor
      · intro e he
        cases he
        decide
      · intro lt hlt
        cases hlt
        decide)

/-- Unfolding equation of the dedup loop on a cons cell. -/
theorem dedupeAux_cons (seen : List (String × String)) (c : ClassRec) (l : List ClassRec) :
    dedupeAux seen (c :: l)
      = if dkey c ∈ seen then dedupeAux seen l
        else c :: dedupeAux (dkey c :: seen) l := rfl

/-- The dedup loop yields a subsequence of its input, whatever keys were
already seen. -/
theorem dedupeAux_sublist (seen : List (String × String)) (l : List ClassRec) :
    List.Sublist (dedupeAux seen l) l := by
  induction l generalizing seen with
  | nil => simp [dedupeAux]
  | cons c rest ih =>
    rw [dedupeAux_cons]
    by_cases h : dkey c ∈ seen
    · simp only [if_pos h]
      exact (ih seen).cons c
    · simp only [if_neg h]
      exact (ih _).cons₂ c

/-- Per-key content of the dedup loop: for a key not yet seen, exactly the
first input record of that key survives; for a seen key, none does. -/
theorem dedupeAux_filter (seen : List (String × String)) (l : List ClassRec)
    (k : String × String) :
    (dedupeAux seen l).filter (fun c => decide (dkey c = k))
      = if k ∈ seen then []
        else (l.filter (fun c => decide (dkey c = k))).take 1 := by
  induction l generalizing seen with
  | nil =>
    simp only [dedupeAux, List.filter_nil, List.take_nil]
    split <;> rfl
  | cons c rest ih =>
    rw [dedupeAux_cons]
    by_cases hc : dkey c ∈ seen
    · simp only [if_pos hc]
      rw [ih]
      by_cases hk : k ∈ seen
      · simp [hk]
      · have hck : dkey c ≠ k := fun he => hk (he ▸ hc)
        simp [hk, List.filter_cons, hck]
    · simp only [if_neg hc]
      by_cases pk : dkey c = k
      · have hk : k ∉ seen := fun hh => hc (pk ▸ hh)
        rw [List.filter_cons, List.filter_cons]
        rw [ih]
        simp [pk, hk]
      · have hpc : decide (dkey c = k) = false := by
          simp [pk]
        rw [List.filter_cons, List.filter_cons, hpc]
        simp only [Bool.false_eq_true, if_false]
        rw [ih]
        by_cases hk : k ∈ seen
        · rw [if_pos (List.mem_cons_of_mem _ hk), if_pos hk]
        · have h1 : k ∉ dkey c :: seen := by
            intro hmem
            rcases List.mem_cons.mp hmem with h | h
            · exact pk h.symm
            · exact hk h
          rw [if_neg h1, if_neg hk]

/-- The dedup loop is idempotent for any starting `seen` set. -/
theorem dedupeAux_idem (seen : List (String × String)) (l : List ClassRec) :
    dedupeAux seen (dedupeAux seen l) = dedupeAux seen l := by
  induction l generalizing seen with
  | nil => rfl
  | cons c rest ih =>
    rw [dedupeAux_cons]
    by_cases hc : dkey c ∈ seen
    · simp only [if_pos hc]
      exact ih seen
    · simp only [if_neg hc]
      rw [dedupeAux_cons, if_neg hc]
      rw [ih (dkey c :: seen)]

/-- **C6.** Deduplication keyed on `(start_iso, name)` is an
order-preserving subsequence keeping, for every key, exactly the first
record carrying it; it is idempotent and never lengthens the list. -/
theorem c6_dedupe_first_wins (classes : List ClassRec) :
    List.Sublist (dedupe classes) classes
    ∧ (∀ k : String × String,
        (dedupe classes).filter (fun c => decide (dkey c = k))
          = (classes.filter (fun c => decide (dkey c = k))).take 1)
    ∧ dedupe (dedupe classes) = dedupe classes
    ∧ (dedupe classes).length ≤ classes.length :=
  ⟨dedupeAux_sublist [] classes,
   fun k => by
     unfold dedupe
     rw [dedupeAux_filter]
     simp,
   dedupeAux_idem [] classes,
   (dedupeAux_sublist [] classes).length_le⟩

/-- Truncation toward zero of a second count by 60 is positive exactly for
differences of at least one minute. -/
theorem truncDiv60_pos (a : Int) : 0 < truncDiv60 a ↔ 60 ≤ a := by
  unfold truncDiv60
  split
  · omega
  · omega

/-- **C2 (counterexample).** Extraction can produce a record whose
duration-in-minutes is not positive: a fragment whose end timestamp lies
an hour before its start yields `duration_minutes = -60`. -/
theorem c2_counterexample :
    ¬ (∀ r ∈ parse_bw_widget_html
          [⟨some "x", some "2026-02-16T10:00", some "2026-02-16T09:00", none, none⟩]
          "group_fitness",
        ∀ d : Int, r.duration_minutes = some d → 0 < d) := by
  intro h
  exact absurd
    (h ⟨"X", "x", "2026-02-16T10:00", "2026-02-16T09:00", "2026-02-16", "Monday",
          "10:00 AM", 10, "", "group_fitness", some "9:00 AM", some (-60)⟩
      (by decide) (-60) rfl)
    (by decide)

/-- **C2 (amended).** Every extracted record that carries a duration got it
from a parseable end timestamp: the duration equals the whole-minute
truncation of end minus start, and it is strictly positive exactly when the
end timestamp is at least sixty seconds after the start timestamp
(strict positivity in general is only restored by the serializer's
fallback, not at extraction). -/
theorem c2_duration_sign (label : String) (frags : List Frag) (r : ClassRec) (d : Int)
    (hr : r ∈ parse_bw_widget_html frags label) (hd : r.duration_minutes = some d) :
    ∃ st en, fromisoformat r.start_iso = some st ∧ fromisoformat r.end_iso = some en
      ∧ d = minutesBetween st en
      ∧ (0 < d ↔ 60 ≤ toSeconds en - toSeconds st) := by
  obtain ⟨f, hf, hpf⟩ := List.mem_filterMap.mp hr
  unfold processFrag at hpf
  split at hpf
  · exact Option.noConfusion hpf
  · rename_i start_iso hsa
    dsimp only at hpf
    split at hpf
    · exact Option.noConfusion hpf
    · rename_i start_dt hpd
      split at hpf
      · split at hpf
        · rename_i end_dt hpe
          rw [Option.some_inj] at hpf
          subst hpf
          simp only [Option.some_inj] at hd
          exact ⟨start_dt, end_dt, hpd, hpe, hd.symm, by
            rw [← hd]
            exact truncDiv60_pos _⟩
        · rw [Option.some_inj] at hpf
          subst hpf
          exact Option.noConfusion hd
      · rw [Option.some_inj] at hpf
        subst hpf
        exact Option.noConfusion hd

/-- C2 witness (for the amended claim): the `-60`-minute record of the
counterexample satisfies the sign characterization. -/
theorem c2_witness :
    ∃ st en, fromisoformat "2026-02-16T10:00" = some st
      ∧ fromisoformat "2026-02-16T09:00" = some en
      ∧ (-60 : Int) = minutesBetween st en
      ∧ ((0 : Int) < -60 ↔ 60 ≤ toSeconds en - toSeconds st) :=
  c2_duration_sign "group_fitness"
    [⟨some "x", some "2026-02-16T10:00", some "2026-02-16T09:00", none, none⟩]
    ⟨"X", "x", "2026-02-16T10:00", "2026-02-16T09:00", "2026-02-16", "Monday",
      "10:00 AM", 10, "", "group_fitness", some "9:00 AM", some (-60)⟩
    (-60) (by decide) rfl

/-- The effective duration chosen by lines 259–261: the record's duration
when present and positive, the default otherwise. -/
theorem effectiveDur_eq (dm : Option Int) (dflt : Int) :
    (if dm.getD dflt ≤ 0 then dflt else dm.getD dflt)
      = match dm with
        | some d => if 0 < d then d else dflt
        | none => dflt := by
  cases dm with
  | none =>
    dsimp [Option.getD]
    split <;> rfl
  | some d =>
    dsimp [Option.getD]
    split <;> split <;> omega

/-- **C7.** In the serialized entry of a record with parseable start, the
DTEND wall-clock time is the start plus the record's duration when that
duration is present and positive, and the start plus the configured
default duration (45 when unconfigured) when the duration is absent,
zero, or negative. -/
theorem c7_dtend_duration_fallback (config : Config) (nowUtc : String)
    (md5hex16 : String → String) (cls : ClassRec) (st : DT)
    (hst : fromisoformat cls.start_iso = some st) :
    (eventBlock ((config.default_class_duration_minutes).getD 45) nowUtc md5hex16 cls).get? 4
      = some ("DTEND;TZID=America/Los_Angeles:" ++
          fmtCompact (addMinutes st
            (match cls.duration_minutes with
             | some d =>
               if 0 < d then d else (config.default_class_duration_minutes).getD 45
             | none => (config.default_class_duration_minutes).getD 45))) := by
  have hne : ¬ cls.start_iso = "" := by
    intro h
    rw [h, fromisoformat_empty] at hst
    exact Option.noConfusion hst
  unfold eventBlock
  rw [if_neg hne, hst]
  dsimp only
  rw [effectiveDur_eq]
  rfl

/-- C7 witness: a record with computed duration `-60` gets DTEND at start
plus the default 45 minutes. -/
theorem c7_witness :
    (eventBlock 45 "20260216T000000Z" (fun s => s)
        ⟨"Neg", "x", "2026-02-16T10:00", "2026-02-16T09:00", "2026-02-16", "Monday",
          "10:00 AM", 10, "", "group_fitness", some "9:00 AM", some (-60)⟩).get? 4
      = some ("DTEND;TZID=America/Los_Angeles:" ++
          fmtCompact (addMinutes ⟨2026, 2, 16, 10, 0, 0⟩ 45)) :=
  c7_dtend_duration_fallback ⟨[], [], none, none, none, none⟩ "20260216T000000Z"
    (fun s => s)
    ⟨"Neg", "x", "2026-02-16T10:00", "2026-02-16T09:00", "2026-02-16", "Monday",
      "10:00 AM", 10, "", "group_fitness", some "9:00 AM", some (-60)⟩
    ⟨2026, 2, 16, 10, 0, 0⟩ (by decide)

/-- **C8.** For a sequence of records whose start timestamps all parse, the
document is the fixed header and timezone block, followed by exactly one
eleven-line entry block per record in input order, followed by the footer;
the first and last lines are the matched calendar markers, and the empty
input yields header, timezone block and footer only. -/
theorem c8_one_block_per_record (classes : List ClassRec) (config : Config)
    (nowUtc : String) (md5hex16 : String → String)
    (h : ∀ cls ∈ classes, (fromisoformat cls.start_iso).isSome = true) :
    icsLines classes config nowUtc md5hex16
        = headerLines (config.calendar_name.getD defaultCalName)
          ++ classes.flatMap
              (eventBlock ((config.default_class_duration_minutes).getD 45) nowUtc md5hex16)
          ++ ["END:VCALENDAR"]
    ∧ (∀ cls ∈ classes,
        (eventBlock ((config.default_class_duration_minutes).getD 45) nowUtc md5hex16
            cls).length = 11
        ∧ (eventBlock ((config.default_class_duration_minutes).getD 45) nowUtc md5hex16
            cls).head? = some "BEGIN:VEVENT"
        ∧ (eventBlock ((config.default_class_duration_minutes).getD 45) nowUtc md5hex16
            cls).getLast? = some "END:VEVENT")
    ∧ (icsLines classes config nowUtc md5hex16).head? = some "BEGIN:VCALENDAR"
    ∧ (icsLines classes config nowUtc md5hex16).getLast? = some "END:VCALENDAR"
    ∧ icsLines [] config nowUtc md5hex16
        = headerLines (config.calendar_name.getD defaultCalName) ++ ["END:VCALENDAR"] := by
  refine ⟨rfl, ?_, rfl, ?_, rfl⟩
  · intro cls hcls
    obtain ⟨st, hst⟩ := Option.isSome_iff_exists.mp (h cls hcls)
    have hne : ¬ cls.start_iso = "" := by
      intro he
      rw [he, fromisoformat_empty] at hst
      exact Option.noConfusion hst
    unfold eventBlock
    rw [if_neg hne, hst]
    exact ⟨rfl, rfl, rfl⟩
  · unfold icsLines
    dsimp only
    exact List.getLast?_concat _

/-- C8 witness: one record with parseable start produces the header, its
single entry block, and the footer. -/
theorem c8_witness :
    icsLines
        [⟨"Water Aerobics", "water_aerobics", "2026-02-16T10:00", "2026-02-16T10:45",
          "2026-02-16", "Monday", "10:00 AM", 10, "CATHY STEEN", "aquatics",
          some "10:45 AM", some 45⟩]
        ⟨[], [], none, none, none, none⟩ "20260216T000000Z" (fun s => s)
      = headerLines defaultCalName
        ++ [(⟨"Water Aerobics", "water_aerobics", "2026-02-16T10:00", "2026-02-16T10:45",
              "2026-02-16", "Monday", "10:00 AM", 10, "CATHY STEEN", "aquatics",
              some "10:45 AM", some 45⟩ : ClassRec)].flatMap
            (eventBlock 45 "20260216T000000Z" (fun s => s))
        ++ ["END:VCALENDAR"] :=
  (c8_one_block_per_record
      [⟨"Water Aerobics", "water_aerobics", "2026-02-16T10:00", "2026-02-16T10:45",
        "2026-02-16", "Monday", "10:00 AM", 10, "CATHY STEEN", "aquatics",
        some "10:45 AM", some 45⟩]
      ⟨[], [], none, none, none, none⟩ "20260216T000000Z" (fun s => s) (by decide)).1

/-- **C9.** The serializer is total and applies its own start-timestamp
gate: a record whose start field is empty (the dict default for a missing
key) or fails ISO parsing produces no entry lines, and the records around
it are still serialized. -/
theorem c9_serializer_start_gate (config : Config) (nowUtc : String)
    (md5hex16 : String → String) (pre post : List ClassRec) (cls : ClassRec)
    (h : cls.start_iso = "" ∨ fromisoformat cls.start_iso = none) :
    icsLines (pre ++ cls :: post) config nowUtc md5hex16
      = icsLines (pre ++ post) config nowUtc md5hex16 := by
  have hz : eventBlock ((config.default_class_duration_minutes).getD 45) nowUtc md5hex16 cls
      = [] := by
    unfold eventBlock
    rcases h with h | h
    · rw [if_pos h]
    · by_cases he : cls.start_iso = ""
      · rw [if_pos he]
      · rw [if_neg he, h]
  unfold icsLines
  dsimp only
  rw [List.flatMap_append, List.flatMap_append, List.flatMap_cons, hz]
  simp

/-- C9 witness: a record with empty start between two well-formed records
contributes nothing, and both neighbours keep their entry blocks. -/
theorem c9_witness :
    icsLines
        [⟨"Water Aerobics", "water_aerobics", "2026-02-16T10:00", "2026-02-16T10:45",
          "2026-02-16", "Monday", "10:00 AM", 10, "CATHY STEEN", "aquatics",
          some "10:45 AM", some 45⟩,
         ⟨"Broken", "", "", "", "", "", "", 0, "", "", none, none⟩,
         ⟨"Spin Class", "", "2026-02-16T06:00", "", "2026-02-16", "Monday",
          "6:00 AM", 6, "", "group_fitness", none, none⟩]
        ⟨[], [], none, none, none, none⟩ "20260216T000000Z" (fun s => s)
      = icsLines
          [⟨"Water Aerobics", "water_aerobics", "2026-02-16T10:00", "2026-02-16T10:45",
            "2026-02-16", "Monday", "10:00 AM", 10, "CATHY STEEN", "aquatics",
            some "10:45 AM", some 45⟩,
           ⟨"Spin Class", "", "2026-02-16T06:00", "", "2026-02-16", "Monday",
            "6:00 AM", 6, "", "group_fitness", none, none⟩]
          ⟨[], [], none, none, none, none⟩ "20260216T000000Z" (fun s => s) :=
  c9_serializer_start_gate ⟨[], [], none, none, none, none⟩ "20260216T000000Z" (fun s => s)
    [⟨"Water Aerobics", "water_aerobics", "2026-02-16T10:00", "2026-02-16T10:45",
      "2026-02-16", "Monday", "10:00 AM", 10, "CATHY STEEN", "aquatics",
      some "10:45 AM", some 45⟩]
    [⟨"Spin Class", "", "2026-02-16T06:00", "", "2026-02-16", "Monday",
      "6:00 AM", 6, "", "group_fitness", none, none⟩]
    ⟨"Broken", "", "", "", "", "", "", 0, "", "", none, none⟩ (Or.inl rfl)

end Scraper

